import Mathlib

/-!
Verification development for the FIT data-message decoding core
(`data_message.py`, `object_fields.py`).

The embedding models:
  * Python `dict` (string-keyed, insertion-ordered, in-place overwrite)
    as an association list with `dict_get` / `dict_set`;
  * `DataMessageDecodeContext` and the timestamp reconstruction functions
    `__timestamp16_to_timestamp` / `__track_time` (timestamps as integer
    epoch seconds, `datetime.timedelta(seconds=delta)` as integer addition;
    `None + timedelta`, a Python `TypeError`, is an `Except.error`);
  * the field-assembly loop of `DataMessage.__init__`, dependent-field
    resolution (`__convert_fields`), developer fields
    (`__convert_dev_fields`) and `to_dict`;
  * `ObjectField.convert` and `CompressedSpeedDistanceField.convert`
    over exact rationals.

Python truthiness of `self.context.matched_timestamp_16` (an `int` or
`None`) is modelled exactly: the anchor test succeeds iff the anchor is
`some m` with `m ≠ 0`.
-/

namespace Fit

/-- Lookup in a Python dict modelled as an association list: the value of
the first entry whose key matches. -/
def dict_get {α : Type} (m : List (String × α)) (k : String) : Option α :=
  match m with
  | [] => none
  | p :: rest => if p.1 = k then some p.2 else dict_get rest k

/-- Python dict assignment `m[k] = v`: replace the value in place if the key
exists (keeping its position), otherwise append the new entry at the end. -/
def dict_set {α : Type} (m : List (String × α)) (k : String) (v : α) :
    List (String × α) :=
  match m with
  | [] => [(k, v)]
  | p :: rest => if p.1 = k then (k, v) :: rest else p :: dict_set rest k v

/-- Keys of a dict, in order. -/
def dict_keys {α : Type} (m : List (String × α)) : List String :=
  m.map Prod.fst

/-- Decode context from `data_message.py`: state carried across the decoding
of all data messages of one file (`DataMessageDecodeContext.__init__`). -/
structure DataMessageDecodeContext where
  matched_timestamp_16 : Option Int
  last_timestamp : Option Int
  last_absolute_timestamp : Option Int
deriving DecidableEq, Repr

/-- Embedding of `DataMessage.__timestamp16_to_timestamp`.  The Python test
`if self.context.matched_timestamp_16:` is truthiness: it takes the anchored
branch only when the anchor is present *and nonzero*.  In the un-anchored
branch the anchor is set to the incoming value and delta is 0.  The final
`self.context.last_absolute_timestamp + datetime.timedelta(seconds=delta)`
raises `TypeError` when `last_absolute_timestamp` is `None`; that is the
`Except.error` case (the anchor assignment has already happened by then). -/
def timestamp16_to_timestamp (ctx : DataMessageDecodeContext)
    (timestamp_16 : Int) : Except String (Int × DataMessageDecodeContext) :=
  let step : Int × DataMessageDecodeContext :=
    match ctx.matched_timestamp_16 with
    | some m =>
      if m ≠ 0 then
        if timestamp_16 ≥ m then
          (timestamp_16 - m, ctx)
        else
          ((m - 65535) + timestamp_16, ctx)
      else
        (0, { ctx with matched_timestamp_16 := some timestamp_16 })
    | none => (0, { ctx with matched_timestamp_16 := some timestamp_16 })
  match step.2.last_absolute_timestamp with
  | some t => Except.ok (t + step.1, step.2)
  | none => Except.error "TypeError: unsupported operand NoneType + timedelta"

/-- Field descriptor as seen by `data_message.py`: a name, the ordered list
of control-field names (`_dependant_field_control_fields`), and the optional
resolver (`dependant_field`, probed with `getattr` in the source; a bound
method is always truthy, so presence of the attribute decides the branch).
The resolver returns the field descriptor that actually governs the value. -/
inductive Field : Type where
  | mk (name : String) (dependant_field_control_fields : List String)
      (dependant_field : Option (List (Option Int) → Field)) : Field

/-- Name of a field descriptor. -/
def Field.name : Field → String
  | .mk n _ _ => n

/-- Ordered control-field names of a field descriptor. -/
def Field.dependant_field_control_fields : Field → List String
  | .mk _ cs _ => cs

/-- Optional dependent-field resolver of a field descriptor. -/
def Field.dependant_field : Field → Option (List (Option Int) → Field)
  | .mk _ _ d => d

/-- Field value as used by `data_message.py`: the owning descriptor
(`field`, replaced in place when dependent resolution fires), the decoded
primary numeric value (`.value` / `._value.value`; `none` models Python
`None`), the invalid sentinel, and the named display sub-values. -/
structure FieldValue where
  field : Field
  value : Option Int
  invalid : Int
  subvalues : List (String × Option Int)

/-- Modelled from the spec: `FieldValue.reconvert` (called at
`data_message.py` line 71; its body lives in `field_value.py`, which is not
part of the sources here).  Per spec §4.1/§4.3 it repeats only the
display-derivation step under the (possibly replaced) descriptor —
`ObjectField.reconvert` returns a fresh name-to-display mapping — while
preserving the already-decoded semantic value and the sentinel. -/
def FieldValue.reconvert (fv : FieldValue) : FieldValue :=
  { fv with subvalues := [(fv.field.name, fv.value)] }

/-- Result of decoding one raw data field, as consumed by the assembly loop
of `DataMessage.__init__`.  Modelled from the spec: whether
`field_value.subfield_names()` is `None` (the `DataField` wrapper is not
part of the sources here) distinguishes, per spec §4.2, a value that
"logically expands into multiple independently-named fields" (`expanded`,
e.g. a compressed field) from a plain single-named value (`single`). -/
inductive DataFieldResult where
  | single (fv : FieldValue)
  | expanded (subs : List FieldValue)

/-- One sub-field insertion of the assembly loop (`data_message.py` lines
46–51): if the sub-field's formal name is already mapped, the existing
entry's numeric value is incremented in place
(`message_fields[name]._value.value += subfield_value._value.value`; adding
with a Python `None` operand would raise, hence `Except`); otherwise the
sub-field value is inserted as a new entry. -/
def insert_subfield (message_fields : List (String × FieldValue))
    (subfield_value : FieldValue) : Except String (List (String × FieldValue)) :=
  match dict_get message_fields subfield_value.field.name with
  | some existing =>
    match existing.value, subfield_value.value with
    | some a, some b =>
      Except.ok (dict_set message_fields subfield_value.field.name
        { existing with value := some (a + b) })
    | _, _ => Except.error "TypeError: unsupported operand in accumulation"
  | none =>
    Except.ok (dict_set message_fields subfield_value.field.name subfield_value)

/-- One iteration of the assembly loop of `DataMessage.__init__` (lines
41–53): an expanded value inserts each sub-field through `insert_subfield`;
a single value is assigned directly under its own field name (plain dict
assignment, overwriting any existing entry). -/
def assemble_step (message_fields : List (String × FieldValue))
    (df : DataFieldResult) : Except String (List (String × FieldValue)) :=
  match df with
  | .single fv => Except.ok (dict_set message_fields fv.field.name fv)
  | .expanded subs => subs.foldlM insert_subfield message_fields

/-- The provisional `message_fields` mapping built by `DataMessage.__init__`
over the record's data fields in definition order. -/
def assemble_fields (dfs : List DataFieldResult) :
    Except String (List (String × FieldValue)) :=
  dfs.foldlM assemble_step []

/-- Embedding of `DataMessage.__control_field_value`: the already-decoded
value of the named control field, or `none` with a logged diagnostic when
the control field is absent from the provisional mapping (the Python method
falls through and implicitly returns `None` after `logger.debug`). -/
def control_field_value (message_fields : List (String × FieldValue))
    (control_field_name : String) : Option Int × List String :=
  match dict_get message_fields control_field_name with
  | some control_field => (control_field.value, [])
  | none => (none, ["Missing control field " ++ control_field_name])

/-- Per-field body of `DataMessage.__convert_fields` (lines 65–71): when the
descriptor has a dependent-field resolver, gather the ordered control
values, replace the descriptor with the resolver's result and re-derive the
display sub-values via `reconvert`; otherwise the value passes unchanged. -/
def convert_one_field (message_fields : List (String × FieldValue))
    (fv : FieldValue) : FieldValue × List String :=
  match fv.field.dependant_field with
  | some dependant_field_func =>
    let control_values := fv.field.dependant_field_control_fields.map
      (fun c => (control_field_value message_fields c).1)
    let logs := (fv.field.dependant_field_control_fields.map
      (fun c => (control_field_value message_fields c).2)).flatten
    (FieldValue.reconvert { fv with field := dependant_field_func control_values },
      logs)
  | none => (fv, [])

/-- Embedding of `DataMessage.__convert_fields`: every provisional value is
processed in insertion order and stored in `self._fields` under its
(post-resolution) field name. -/
def convert_fields (message_fields : List (String × FieldValue)) :
    List (String × FieldValue) × List String :=
  message_fields.foldl
    (fun acc p =>
      let r := convert_one_field message_fields p.2
      (dict_set acc.1 r.1.field.name r.1, acc.2 ++ r.2))
    ([], [])

/-- Record definition as consumed by the decoder: the regular data-field
results in definition order, and the developer fields
(`definition_message.has_dev_fields` / `dev_field_definitions`). -/
structure DefinitionMessage where
  data_fields : List DataFieldResult
  has_dev_fields : Bool
  dev_field_values : List FieldValue

/-- Embedding of `DataMessage.__convert_dev_fields` (lines 74–80): when the
definition carries developer fields, each one is assigned directly into
`self._fields` under its field name — no sub-field accumulation, no
dependent-field resolution. -/
def convert_dev_fields (fields : List (String × FieldValue))
    (dm : DefinitionMessage) : List (String × FieldValue) :=
  if dm.has_dev_fields then
    dm.dev_field_values.foldl (fun acc fv => dict_set acc fv.field.name fv) fields
  else fields

/-- Embedding of `DataMessage.__track_time` (lines 82–100).  Returns the
record's resolved timestamp, the updated context, and the logged
diagnostics.  The malformed case (a `timestamp_16` field whose decoded
value is `None`) logs an error and falls back to `last_timestamp`; in every
successful branch the context's `last_timestamp` is finally set to the
record's resolved timestamp. -/
def track_time (fields : List (String × FieldValue))
    (ctx : DataMessageDecodeContext) :
    Except String (Option Int × DataMessageDecodeContext × List String) :=
  match dict_get fields "timestamp" with
  | some tsfv =>
    Except.ok (tsfv.value,
      { matched_timestamp_16 := none, last_timestamp := tsfv.value,
        last_absolute_timestamp := tsfv.value }, [])
  | none =>
    match dict_get fields "timestamp_16" with
    | some timestamp_16_field =>
      match timestamp_16_field.value with
      | some v =>
        match timestamp16_to_timestamp ctx v with
        | Except.ok (ts, ctx1) =>
          Except.ok (some ts, { ctx1 with last_timestamp := some ts }, [])
        | Except.error e => Except.error e
      | none =>
        Except.ok (ctx.last_timestamp,
          { ctx with last_timestamp := ctx.last_timestamp },
          ["timestamp16 with value None"])
    | none =>
      Except.ok (ctx.last_timestamp,
        { ctx with last_timestamp := ctx.last_timestamp }, [])

/-- A decoded data message: the final field mapping, the resolved timestamp
and the diagnostics logged while decoding. -/
structure DataMessage where
  fields : List (String × FieldValue)
  timestamp : Option Int
  logs : List String

/-- Full decode pipeline of `DataMessage.__init__`: assemble the provisional
mapping, run dependent-field conversion, then developer fields, then
timestamp tracking. -/
def decode (dm : DefinitionMessage) (ctx : DataMessageDecodeContext) :
    Except String (DataMessage × DataMessageDecodeContext) :=
  match assemble_fields dm.data_fields with
  | Except.error e => Except.error e
  | Except.ok message_fields =>
    match track_time (convert_dev_fields (convert_fields message_fields).1 dm)
        ctx with
    | Except.error e => Except.error e
    | Except.ok (ts, ctx2, logs2) =>
      Except.ok
        ({ fields := convert_dev_fields (convert_fields message_fields).1 dm,
           timestamp := ts,
           logs := (convert_fields message_fields).2 ++ logs2 }, ctx2)

/-- One iteration of `DataMessage.to_dict` (lines 120–124): a
`timestamp_16` entry is folded into a `timestamp` entry holding the
record's resolved timestamp; any other entry is inserted under its
(optionally lower-cased) name unless empty values are being ignored and its
value is `None`. -/
def to_dict_step (timestamp : Option Int)
    (ignore_none_values lower_case : Bool)
    (fields : List (String × Option Int)) (p : String × FieldValue) :
    List (String × Option Int) :=
  if p.1 = "timestamp_16" then
    dict_set fields "timestamp" timestamp
  else if ignore_none_values = false ∨ p.2.value ≠ none then
    dict_set fields (if lower_case then p.1.toLower else p.1) p.2.value
  else fields

/-- Embedding of `DataMessage.to_dict`. -/
def to_dict (msg : DataMessage) (ignore_none_values lower_case : Bool) :
    List (String × Option Int) :=
  msg.fields.foldl (to_dict_step msg.timestamp ignore_none_values lower_case) []

/-- Measurement value (the result of an `obj_func` such as
`measurement.Distance.from_cm`): the semantic numeric value together with
the transformed invalid sentinel it is to be compared against.  Modelled
from the spec: the measurement classes live in `measurement.py`, outside
the sources here; per spec §2/§4.1 a Measurement Value is constructed from
the scaled pair (value, invalid-sentinel). -/
structure Measurement where
  value : ℚ
  invalid : ℚ
deriving DecidableEq, Repr

/-- Modelled from the spec: a Measurement is judged invalid when its value
matches its (identically transformed) invalid sentinel — the comparison
that `ObjectField._invalid_single` delegates to `value.is_invalid()`. -/
def Measurement.is_invalid (m : Measurement) : Prop :=
  m.value = m.invalid

instance (m : Measurement) : Decidable m.is_invalid := by
  unfold Measurement.is_invalid
  infer_instance

/-- The numeric field value produced by `ObjectField.convert`: a
`FieldValue(self, value_obj, invalid, {name: display})` — the descriptor's
name, the constructed measurement object, and the raw invalid sentinel it
stores alongside. -/
structure QFieldValue where
  name : String
  value_obj : Measurement
  invalid : ℚ
deriving DecidableEq, Repr

/-- Scale/offset transform applied by `ObjectField.convert` on line 33 of
`object_fields.py`: `(x / self._scale) - self._offset`. -/
def scale_offset (scale offset x : ℚ) : ℚ :=
  (x / scale) - offset

/-- Embedding of `ObjectField.convert` (lines 29–34 of `object_fields.py`):
applies the scale/offset transform identically to both the raw value and
the invalid sentinel, passes the transformed pair to the semantic
constructor `obj_func`, and returns the singleton field-value list. -/
def ObjectField_convert (obj_func : ℚ → ℚ → Measurement) (name : String)
    (scale offset : ℚ) (value invalid : ℚ) : List QFieldValue :=
  [{ name := name,
     value_obj := obj_func ((value / scale) - offset) ((invalid / scale) - offset),
     invalid := invalid }]

/-- Embedding of `CompressedSpeedDistanceField.convert` (lines 156–161 of
`object_fields.py`): the raw reading is bit-split into
`speed = value & 0x3f` and `distance = value >> 12`, and each sub-reading
is converted by its sub-field (`SpeedMpsField('speed')`,
`DistanceCentimetersToKmsField('distance')`, both with default scale 1 and
offset 0) with the fixed sentinel `0xff`; the parent's own `invalid`
argument is ignored.  The sub-fields' `obj_func`s are parameters
(`measurement.py` is outside the sources here). -/
def CompressedSpeedDistanceField_convert
    (speed_obj_func distance_obj_func : ℚ → ℚ → Measurement)
    (value : Nat) (invalid : ℚ) : List QFieldValue :=
  ObjectField_convert speed_obj_func "speed" 1 0
    ((value &&& 0x3f : Nat) : ℚ) 0xff ++
  ObjectField_convert distance_obj_func "distance" 1 0
    ((value >>> 12 : Nat) : ℚ) 0xff

/-- A plain field descriptor with no dependent-field resolver. -/
def plain_field (n : String) : Field :=
  Field.mk n [] none

/-- A plain field value for a named field, with sentinel 255 and no display
sub-values. -/
def plain_value (n : String) (v : Option Int) : FieldValue :=
  { field := plain_field n, value := v, invalid := 255, subvalues := [] }

@[simp]
theorem dict_get_nil {α : Type} (k : String) :
    dict_get ([] : List (String × α)) k = none := rfl

@[simp]
theorem dict_get_cons {α : Type} (p : String × α) (m : List (String × α))
    (k : String) :
    dict_get (p :: m) k = if p.1 = k then some p.2 else dict_get m k := rfl

@[simp]
theorem dict_set_nil {α : Type} (k : String) (v : α) :
    dict_set ([] : List (String × α)) k v = [(k, v)] := rfl

@[simp]
theorem dict_set_cons {α : Type} (p : String × α) (m : List (String × α))
    (k : String) (v : α) :
    dict_set (p :: m) k v =
      if p.1 = k then (k, v) :: m else p :: dict_set m k v := rfl

@[simp]
theorem dict_keys_nil {α : Type} :
    dict_keys ([] : List (String × α)) = [] := rfl

@[simp]
theorem dict_keys_cons {α : Type} (p : String × α) (m : List (String × α)) :
    dict_keys (p :: m) = p.1 :: dict_keys m := rfl

theorem dict_get_set_self {α : Type} (m : List (String × α)) (k : String)
    (v : α) : dict_get (dict_set m k v) k = some v := by
  induction m with
  | nil => simp
  | cons p rest ih =>
    by_cases h : p.1 = k
    · simp [h]
    · simp [h, ih]

theorem dict_get_set_ne {α : Type} (m : List (String × α)) (k k' : String)
    (v : α) (h : k' ≠ k) :
    dict_get (dict_set m k v) k' = dict_get m k' := by
  have hk : ¬ k = k' := fun hh => h hh.symm
  induction m with
  | nil => simp [hk]
  | cons p rest ih =>
    by_cases hp : p.1 = k
    · subst hp
      simp [hk]
    · by_cases hp' : p.1 = k'
      · simp [hp, hp', hk, h]
      · simp [hp, hp', ih]

theorem dict_keys_set {α : Type} (m : List (String × α)) (k : String)
    (v : α) :
    dict_keys (dict_set m k v) =
      if k ∈ dict_keys m then dict_keys m else dict_keys m ++ [k] := by
  induction m with
  | nil => simp
  | cons p rest ih =>
    by_cases h : p.1 = k
    · subst h
      simp
    · have hne : ¬ k = p.1 := fun hh => h hh.symm
      by_cases hm : k ∈ dict_keys rest
      · simp [h, ih, hm, hne]
      · simp [h, ih, hm, hne]

theorem dict_keys_set_nodup {α : Type} (m : List (String × α)) (k : String)
    (v : α) (h : (dict_keys m).Nodup) :
    (dict_keys (dict_set m k v)).Nodup := by
  rw [dict_keys_set]
  by_cases hm : k ∈ dict_keys m
  · simpa [hm] using h
  · simp only [if_neg hm]
    simpa [List.nodup_append] using ⟨h, hm⟩

theorem dict_get_mem_keys {α : Type} (m : List (String × α)) (k : String)
    (v : α) : dict_get m k = some v → k ∈ dict_keys m := by
  induction m with
  | nil => intro h; simp at h
  | cons p rest ih =>
    intro h
    by_cases hp : p.1 = k
    · simp [hp]
    · simp only [dict_get_cons, if_neg hp] at h
      simp [ih h]

/-- C1: the sticky-anchor property holds only for a nonzero anchor.  When
the anchor is `some m` with `m ≠ 0` and an absolute timestamp `T` is
present, a 16-bit record computes its delta against the original anchor `m`
and returns the context unchanged (anchor not moved); an absolute-timestamp
record clears the anchor to `none` (and adopts the new absolute timestamp).
An anchor of 0 is excluded: Python truthiness treats it as no anchor. -/
theorem C1_sticky_anchor_nonzero (ctx : DataMessageDecodeContext)
    (m T v : Int) (hm : ctx.matched_timestamp_16 = some m) (hm0 : m ≠ 0)
    (hT : ctx.last_absolute_timestamp = some T)
    (fields : List (String × FieldValue)) (tsfv : FieldValue)
    (hts : dict_get fields "timestamp" = some tsfv) :
    timestamp16_to_timestamp ctx v =
      Except.ok (T + (if v ≥ m then v - m else (m - 65535) + v), ctx) ∧
    track_time fields ctx =
      Except.ok (tsfv.value,
        { matched_timestamp_16 := none, last_timestamp := tsfv.value,
          last_absolute_timestamp := tsfv.value }, []) := by
  constructor
  · unfold timestamp16_to_timestamp
    by_cases hv : v ≥ m <;> simp [hm, hm0, hv, hT]
  · unfold track_time
    rw [hts]

/-- Witness for C1 at a concrete nonzero anchor. -/
theorem C1_sticky_anchor_nonzero_witness :
    timestamp16_to_timestamp ⟨some 100, some 0, some 500⟩ 150 =
      Except.ok
        (500 + (if (150 : Int) ≥ 100 then 150 - 100 else (100 - 65535) + 150),
          ⟨some 100, some 0, some 500⟩) ∧
    track_time [("timestamp", plain_value "timestamp" (some 999))]
        ⟨some 100, some 0, some 500⟩ =
      Except.ok ((plain_value "timestamp" (some 999)).value,
        { matched_timestamp_16 := none,
          last_timestamp := (plain_value "timestamp" (some 999)).value,
          last_absolute_timestamp := (plain_value "timestamp" (some 999)).value },
        []) :=
  C1_sticky_anchor_nonzero ⟨some 100, some 0, some 500⟩ 100 500 150 rfl
    (by decide) rfl [("timestamp", plain_value "timestamp" (some 999))]
    (plain_value "timestamp" (some 999)) rfl

/-- C1 counterexample: with anchor V1 = 0 (established from a first 16-bit
value 0 under absolute timestamp 1000), a second record with 16-bit value 5
does NOT compute its delta against 0 (it yields delta 0, timestamp 1000,
not 1005) and DOES move the anchor to 5: Python truthiness of
`matched_timestamp_16` treats a 0 anchor as absent. -/
theorem C1_counterexample :
    timestamp16_to_timestamp ⟨none, some 1000, some 1000⟩ 0 =
      Except.ok (1000, ⟨some 0, some 1000, some 1000⟩) ∧
    timestamp16_to_timestamp ⟨some 0, some 1000, some 1000⟩ 5 =
      Except.ok (1000, ⟨some 5, some 1000, some 1000⟩) ∧
    (some 5 : Option Int) ≠ some 0 ∧
    (1000 : Int) ≠ 1000 + (5 - 0) :=
  ⟨rfl, rfl, by decide, by decide⟩

/-- C2: the 16-bit delta rules as implemented.  If no anchor exists — or
the anchor is 0, which Python truthiness treats as absent — delta = 0 and
the value becomes the new anchor; else if v ≥ anchor, delta = v − anchor;
else delta = (anchor − 65535) + v.  The resolved timestamp is
`last_absolute_timestamp` + delta.  The concrete examples hold:
anchor 65000 with v = 500 gives −35, anchor 100 with v = 50000 gives
49900. -/
theorem C2_timestamp16_delta (ctx : DataMessageDecodeContext) (v T : Int)
    (hT : ctx.last_absolute_timestamp = some T) :
    ((ctx.matched_timestamp_16 = none ∨ ctx.matched_timestamp_16 = some 0) →
      timestamp16_to_timestamp ctx v =
        Except.ok (T, { ctx with matched_timestamp_16 := some v })) ∧
    (∀ m : Int, ctx.matched_timestamp_16 = some m → m ≠ 0 → v ≥ m →
      timestamp16_to_timestamp ctx v = Except.ok (T + (v - m), ctx)) ∧
    (∀ m : Int, ctx.matched_timestamp_16 = some m → m ≠ 0 → v < m →
      timestamp16_to_timestamp ctx v =
        Except.ok (T + ((m - 65535) + v), ctx)) ∧
    timestamp16_to_timestamp ⟨some 65000, some 0, some 0⟩ 500 =
      Except.ok (-35, ⟨some 65000, some 0, some 0⟩) ∧
    timestamp16_to_timestamp ⟨some 100, some 0, some 0⟩ 50000 =
      Except.ok (49900, ⟨some 100, some 0, some 0⟩) := by
  refine ⟨?_, ?_, ?_, rfl, rfl⟩
  · rintro (h | h) <;> simp [timestamp16_to_timestamp, h, hT]
  · intro m hm hm0 hv
    unfold timestamp16_to_timestamp
    simp [hm, hm0, hv, hT]
  · intro m hm hm0 hv
    unfold timestamp16_to_timestamp
    simp [hm, hm0, not_le.mpr hv, hT]

/-- Witness for C2 at concrete inputs covering every delta case. -/
theorem C2_timestamp16_delta_witness :
    timestamp16_to_timestamp ⟨none, some 0, some 10⟩ 8 =
      Except.ok (10, ⟨some 8, some 0, some 10⟩) ∧
    timestamp16_to_timestamp ⟨some 3, some 0, some 10⟩ 8 =
      Except.ok (10 + (8 - 3), ⟨some 3, some 0, some 10⟩) ∧
    timestamp16_to_timestamp ⟨some 9, some 0, some 10⟩ 8 =
      Except.ok (10 + ((9 - 65535) + 8), ⟨some 9, some 0, some 10⟩) ∧
    timestamp16_to_timestamp ⟨some 65000, some 0, some 0⟩ 500 =
      Except.ok (-35, ⟨some 65000, some 0, some 0⟩) ∧
    timestamp16_to_timestamp ⟨some 100, some 0, some 0⟩ 50000 =
      Except.ok (49900, ⟨some 100, some 0, some 0⟩) :=
  ⟨(C2_timestamp16_delta ⟨none, some 0, some 10⟩ 8 10 rfl).1 (Or.inl rfl),
   (C2_timestamp16_delta ⟨some 3, some 0, some 10⟩ 8 10 rfl).2.1 3 rfl
     (by decide) (by decide),
   (C2_timestamp16_delta ⟨some 9, some 0, some 10⟩ 8 10 rfl).2.2.1 9 rfl
     (by decide) (by decide),
   (C2_timestamp16_delta ⟨some 65000, some 0, some 0⟩ 500 0 rfl).2.2.2.1,
   (C2_timestamp16_delta ⟨some 100, some 0, some 0⟩ 50000 0 rfl).2.2.2.2⟩

/-- C2 counterexample: with an existing anchor of 0 and incoming value 7,
the claim's rule "v ≥ anchor gives delta = v − anchor" demands timestamp
100 + 7; the code takes the truthiness branch, yields delta 0 (timestamp
100) and re-anchors at 7. -/
theorem C2_counterexample :
    timestamp16_to_timestamp ⟨some 0, some 100, some 100⟩ 7 =
      Except.ok (100, ⟨some 7, some 100, some 100⟩) ∧
    (100 : Int) ≠ 100 + (7 - 0) :=
  ⟨rfl, by decide⟩

/-- C6: a `timestamp_16` field that is present but decodes to `None` is
non-fatal: the record's resolved timestamp falls back to the context's
`last_timestamp`, the diagnostic is logged, and — as in every successful
branch of timestamp resolution — the context's `last_timestamp` is finally
set to the record's resolved timestamp. -/
theorem C6_malformed_timestamp16_fallback
    (fields : List (String × FieldValue)) (ctx : DataMessageDecodeContext)
    (tfv : FieldValue)
    (h1 : dict_get fields "timestamp" = none)
    (h2 : dict_get fields "timestamp_16" = some tfv)
    (h3 : tfv.value = none) :
    track_time fields ctx =
      Except.ok (ctx.last_timestamp,
        { ctx with last_timestamp := ctx.last_timestamp },
        ["timestamp16 with value None"]) ∧
    (∀ (f2 : List (String × FieldValue)) (c2 : DataMessageDecodeContext)
        (r : Option Int × DataMessageDecodeContext × List String),
      track_time f2 c2 = Except.ok r → r.2.1.last_timestamp = r.1) := by
  constructor
  · unfold track_time
    simp only [h1, h2, h3]
  · intro f2 c2 r h
    unfold track_time at h
    repeat' split at h
    all_goals first
      | (cases h; rfl)
      | simp at h

/-- Witness for C6 at a concrete malformed record. -/
theorem C6_malformed_timestamp16_fallback_witness :
    track_time [("timestamp_16", plain_value "timestamp_16" none)]
        ⟨some 3, some 77, some 99⟩ =
      Except.ok (some 77, ⟨some 3, some 77, some 99⟩,
        ["timestamp16 with value None"]) ∧
    ((⟨none, some 5, none⟩ : DataMessageDecodeContext),
        ([] : List String)).1.last_timestamp = some 5 :=
  ⟨(C6_malformed_timestamp16_fallback
      [("timestamp_16", plain_value "timestamp_16" none)]
      ⟨some 3, some 77, some 99⟩ (plain_value "timestamp_16" none)
      rfl rfl rfl).1,
   (C6_malformed_timestamp16_fallback
      [("timestamp_16", plain_value "timestamp_16" none)]
      ⟨some 3, some 77, some 99⟩ (plain_value "timestamp_16" none)
      rfl rfl rfl).2 [] ⟨none, some 5, none⟩
      (some 5, ⟨none, some 5, none⟩, []) rfl⟩

/-- C9: when the record carries a present 16-bit timestamp value but the
context has no absolute timestamp yet, timestamp resolution hits the
unguarded `None + timedelta` and decoding the record fails instead of
producing a record. -/
theorem C9_timestamp16_requires_absolute
    (fields : List (String × FieldValue)) (ctx : DataMessageDecodeContext)
    (tfv : FieldValue) (v : Int)
    (h1 : dict_get fields "timestamp" = none)
    (h2 : dict_get fields "timestamp_16" = some tfv)
    (h3 : tfv.value = some v)
    (h4 : ctx.last_absolute_timestamp = none) :
    track_time fields ctx =
      Except.error "TypeError: unsupported operand NoneType + timedelta" ∧
    (∀ (dm : DefinitionMessage) (mf : List (String × FieldValue)),
      assemble_fields dm.data_fields = Except.ok mf →
      convert_dev_fields (convert_fields mf).1 dm = fields →
      decode dm ctx =
        Except.error "TypeError: unsupported operand NoneType + timedelta") := by
  have htt : track_time fields ctx =
      Except.error "TypeError: unsupported operand NoneType + timedelta" := by
    unfold track_time
    simp only [h1, h2, h3]
    unfold timestamp16_to_timestamp
    rcases hmm : ctx.matched_timestamp_16 with _ | m
    · simp [hmm, h4]
    · by_cases hm0 : m = 0 <;> by_cases hv : v ≥ m <;> simp [hmm, h4, hm0, hv]
  refine ⟨htt, ?_⟩
  intro dm mf ha hf
  unfold decode
  rw [ha]
  simp only [hf, htt]

/-- Witness for C9 at a concrete record and empty context. -/
theorem C9_timestamp16_requires_absolute_witness :
    track_time [("timestamp_16", plain_value "timestamp_16" (some 42))]
        ⟨none, some 7, none⟩ =
      Except.error "TypeError: unsupported operand NoneType + timedelta" ∧
    decode
        { data_fields := [.single (plain_value "timestamp_16" (some 42))],
          has_dev_fields := false, dev_field_values := [] }
        ⟨none, some 7, none⟩ =
      Except.error "TypeError: unsupported operand NoneType + timedelta" :=
  ⟨(C9_timestamp16_requires_absolute
      [("timestamp_16", plain_value "timestamp_16" (some 42))]
      ⟨none, some 7, none⟩ (plain_value "timestamp_16" (some 42)) 42
      rfl rfl rfl rfl).1,
   (C9_timestamp16_requires_absolute
      [("timestamp_16", plain_value "timestamp_16" (some 42))]
      ⟨none, some 7, none⟩ (plain_value "timestamp_16" (some 42)) 42
      rfl rfl rfl rfl).2
      { data_fields := [.single (plain_value "timestamp_16" (some 42))],
        has_dev_fields := false, dev_field_values := [] }
      [("timestamp_16", plain_value "timestamp_16" (some 42))] rfl rfl⟩

/-- C5: `ObjectField.convert` applies the identical transform
`(x / scale) - offset` to both the raw reading and the invalid sentinel
before constructing the measurement, so the converted reading is judged
invalid exactly when the identically transformed sentinel matches it —
equivalently (the transform being injective for a nonzero scale) exactly
when the raw reading equals the raw sentinel. -/
theorem C5_scale_offset_symmetry (n : String) (r s k o : ℚ) (hk : k ≠ 0) :
    ObjectField_convert Measurement.mk n k o r s =
      [{ name := n,
         value_obj := Measurement.mk (scale_offset k o r) (scale_offset k o s),
         invalid := s }] ∧
    ((Measurement.mk (scale_offset k o r) (scale_offset k o s)).is_invalid ↔
      scale_offset k o s = scale_offset k o r) ∧
    ((Measurement.mk (scale_offset k o r) (scale_offset k o s)).is_invalid ↔
      r = s) := by
  refine ⟨rfl, ?_, ?_⟩
  · unfold Measurement.is_invalid
    exact eq_comm
  · unfold Measurement.is_invalid scale_offset
    simp only [sub_left_inj]
    exact div_left_inj' hk

/-- Witness for C5 at concrete scale 2, offset 1, reading 6, sentinel 10. -/
theorem C5_scale_offset_symmetry_witness :
    ObjectField_convert Measurement.mk "height" 2 1 6 10 =
      [{ name := "height",
         value_obj := Measurement.mk (scale_offset 2 1 6) (scale_offset 2 1 10),
         invalid := 10 }] ∧
    ((Measurement.mk (scale_offset 2 1 6) (scale_offset 2 1 10)).is_invalid ↔
      scale_offset 2 1 10 = scale_offset 2 1 6) ∧
    ((Measurement.mk (scale_offset 2 1 6) (scale_offset 2 1 10)).is_invalid ↔
      (6 : ℚ) = 10) :=
  C5_scale_offset_symmetry "height" 6 10 2 1 (by norm_num)

/-- C4 (amended): `CompressedSpeedDistanceField.convert` produces exactly
two field values by bit-splitting the raw integer — the low 6 bits become
the speed sub-reading and the bits from position 12 upward (`value >> 12`,
NOT the remaining bits `value >> 6`; bits 6–11 contribute to neither)
become the distance sub-reading — and each sub-reading is converted with
the fixed sentinel `0xff`, whatever the parent field's own sentinel was. -/
theorem C4_compressed_split
    (speed_obj_func distance_obj_func : ℚ → ℚ → Measurement) (v : Nat)
    (parent_invalid : ℚ) :
    CompressedSpeedDistanceField_convert speed_obj_func distance_obj_func v
        parent_invalid =
      [{ name := "speed",
         value_obj := speed_obj_func ((v &&& 63 : Nat) : ℚ) 255,
         invalid := 255 },
       { name := "distance",
         value_obj := distance_obj_func ((v >>> 12 : Nat) : ℚ) 255,
         invalid := 255 }] := by
  simp [CompressedSpeedDistanceField_convert, ObjectField_convert]

/-- C4 counterexample: at raw reading 64, the remaining bits after the low
6 speed bits are `64 >> 6 = 1`, but the code's distance sub-reading is
`64 >> 12 = 0`. -/
theorem C4_counterexample :
    CompressedSpeedDistanceField_convert Measurement.mk Measurement.mk 64 0 =
      [{ name := "speed", value_obj := ⟨0, 255⟩, invalid := 255 },
       { name := "distance", value_obj := ⟨0, 255⟩, invalid := 255 }] ∧
    ((64 : Nat) >>> 6) = 1 ∧
    (0 : ℚ) ≠ (((64 : Nat) >>> 6 : Nat) : ℚ) := by
  have h1 : (64 &&& 63 : Nat) = 0 := by decide
  have h2 : ((64 : Nat) >>> 12) = 0 := by decide
  have h3 : ((64 : Nat) >>> 6) = 1 := by decide
  refine ⟨?_, h3, ?_⟩
  · simp [CompressedSpeedDistanceField_convert, ObjectField_convert, h1, h2]
  · rw [h3]
    norm_num

/-- C3 (amended): two Field Values destined for the same formal field name
combine by addition only when the later contribution arrives through the
sub-field expansion path; a single (direct) field arriving later is a plain
dict assignment and overwrites the existing entry.  In the claim's example
the result is 150 exactly when the direct distance field appears before the
compressed one. -/
theorem C3_subfield_accumulation (m : List (String × FieldValue))
    (sub fv ex : FieldValue) (a b : Int)
    (hex : dict_get m sub.field.name = some ex)
    (ha : ex.value = some a) (hb : sub.value = some b) :
    insert_subfield m sub =
      Except.ok (dict_set m sub.field.name { ex with value := some (a + b) }) ∧
    assemble_step m (.single fv) =
      Except.ok (dict_set m fv.field.name fv) ∧
    (assemble_fields
        [.single (plain_value "distance" (some 30)),
         .expanded [plain_value "distance" (some 120)]]).map
      (fun mm => (dict_get mm "distance").map FieldValue.value) =
      Except.ok (some (some 150)) := by
  refine ⟨?_, rfl, rfl⟩
  unfold insert_subfield
  simp only [hex, ha, hb]

/-- Witness for C3 at a concrete mapping. -/
theorem C3_subfield_accumulation_witness :
    insert_subfield [("distance", plain_value "distance" (some 5))]
        (plain_value "distance" (some 7)) =
      Except.ok [("distance",
        { plain_value "distance" (some 5) with value := some (5 + 7) })] ∧
    assemble_step [("distance", plain_value "distance" (some 5))]
        (.single (plain_value "speed" (some 3))) =
      Except.ok [("distance", plain_value "distance" (some 5)),
        ("speed", plain_value "speed" (some 3))] ∧
    (assemble_fields
        [.single (plain_value "distance" (some 30)),
         .expanded [plain_value "distance" (some 120)]]).map
      (fun mm => (dict_get mm "distance").map FieldValue.value) =
      Except.ok (some (some 150)) :=
  C3_subfield_accumulation [("distance", plain_value "distance" (some 5))]
    (plain_value "distance" (some 7)) (plain_value "speed" (some 3))
    (plain_value "distance" (some 5)) 5 7 rfl rfl rfl

/-- C3 counterexample: a compressed (expanded) field contributing
distance = 120 followed in definition order by a direct distance field
contributing 30 yields a final distance of 30, not 150: the direct path
overwrites instead of accumulating. -/
theorem C3_counterexample :
    (assemble_fields
        [.expanded [plain_value "distance" (some 120)],
         .single (plain_value "distance" (some 30))]).map
      (fun mm => (dict_get mm "distance").map FieldValue.value) =
      Except.ok (some (some 30)) ∧
    (30 : Int) ≠ 120 + 30 :=
  ⟨rfl, by decide⟩

/-- C10: developer fields are decoded after all regular fields — the final
mapping is `convert_dev_fields` applied to the `convert_fields` output —
and each is inserted by direct dict assignment under its field name: a dev
field whose name is already mapped overwrites the entry with exactly the
dev value (no accumulation with the previous value, no dependent-field
resolution even if the dev field's descriptor declares one). -/
theorem C10_dev_fields_direct_overwrite
    (dm : DefinitionMessage) (ctx : DataMessageDecodeContext)
    (mf : List (String × FieldValue)) (ts : Option Int)
    (ctx2 : DataMessageDecodeContext) (lg : List String)
    (ha : assemble_fields dm.data_fields = Except.ok mf)
    (ht : track_time (convert_dev_fields (convert_fields mf).1 dm) ctx =
      Except.ok (ts, ctx2, lg))
    (m : List (String × FieldValue)) (fv g : FieldValue)
    (hg : dict_get m fv.field.name = some g) :
    decode dm ctx =
      Except.ok
        ({ fields := convert_dev_fields (convert_fields mf).1 dm,
           timestamp := ts, logs := (convert_fields mf).2 ++ lg }, ctx2) ∧
    convert_dev_fields m
        { data_fields := dm.data_fields, has_dev_fields := true,
          dev_field_values := [fv] } = dict_set m fv.field.name fv ∧
    dict_get
        (convert_dev_fields m
          { data_fields := dm.data_fields, has_dev_fields := true,
            dev_field_values := [fv] }) fv.field.name = some fv := by
  refine ⟨?_, rfl, ?_⟩
  · unfold decode
    rw [ha]
    simp only [ht]
  · show dict_get (dict_set m fv.field.name fv) fv.field.name = some fv
    exact dict_get_set_self m fv.field.name fv

/-- C8: a dependent field whose named control field is absent from the
provisional mapping is non-fatal: the missing control is logged, the
resolver receives `none` in that control's position of the ordered
control-value list, the field value's descriptor becomes exactly the
resolver's result followed by `reconvert`, and the decoded value and
sentinel are preserved. -/
theorem C8_missing_control_nonfatal (m : List (String × FieldValue))
    (fv : FieldValue) (res : List (Option Int) → Field) (i : Nat) (c : String)
    (hdep : fv.field.dependant_field = some res)
    (hc : fv.field.dependant_field_control_fields[i]? = some c)
    (habs : dict_get m c = none) :
    (fv.field.dependant_field_control_fields.map
        (fun x => (control_field_value m x).1))[i]? = some none ∧
    ("Missing control field " ++ c) ∈ (convert_one_field m fv).2 ∧
    (convert_one_field m fv).1 =
      FieldValue.reconvert
        { fv with field := res (fv.field.dependant_field_control_fields.map
            (fun x => (control_field_value m x).1)) } ∧
    (convert_one_field m fv).1.value = fv.value ∧
    (convert_one_field m fv).1.invalid = fv.invalid := by
  have hcv : control_field_value m c = (none, ["Missing control field " ++ c]) := by
    unfold control_field_value
    simp only [habs]
  have hcmem : c ∈ fv.field.dependant_field_control_fields := by
    have h2 := List.getElem?_eq_some.mp hc
    obtain ⟨hlt, heq⟩ := h2
    exact heq ▸ List.getElem_mem hlt
  have h3 : (convert_one_field m fv).1 =
      FieldValue.reconvert
        { fv with field := res (fv.field.dependant_field_control_fields.map
            (fun x => (control_field_value m x).1)) } := by
    unfold convert_one_field
    simp only [hdep]
  refine ⟨?_, ?_, h3, ?_, ?_⟩
  · rw [List.getElem?_map, hc]
    simp [hcv]
  · unfold convert_one_field
    simp only [hdep]
    refine List.mem_flatten.mpr
      ⟨(control_field_value m c).2, List.mem_map_of_mem _ hcmem, ?_⟩
    simp [hcv]
  · rw [h3]
    simp [FieldValue.reconvert]
  · rw [h3]
    simp [FieldValue.reconvert]

/-- Witness for C10 at a concrete definition, context and dev field. -/
theorem C10_dev_fields_direct_overwrite_witness :
    decode
        { data_fields := [.single (plain_value "speed" (some 3))],
          has_dev_fields := false, dev_field_values := [] }
        ⟨none, some 11, none⟩ =
      Except.ok
        ({ fields := [("speed", plain_value "speed" (some 3))],
           timestamp := some 11, logs := [] }, ⟨none, some 11, none⟩) ∧
    convert_dev_fields [("alt", plain_value "alt" (some 1))]
        { data_fields := [.single (plain_value "speed" (some 3))],
          has_dev_fields := true,
          dev_field_values := [plain_value "alt" (some 9)] } =
      dict_set [("alt", plain_value "alt" (some 1))] "alt"
        (plain_value "alt" (some 9)) ∧
    dict_get
        (convert_dev_fields [("alt", plain_value "alt" (some 1))]
          { data_fields := [.single (plain_value "speed" (some 3))],
            has_dev_fields := true,
            dev_field_values := [plain_value "alt" (some 9)] }) "alt" =
      some (plain_value "alt" (some 9)) :=
  C10_dev_fields_direct_overwrite
    { data_fields := [.single (plain_value "speed" (some 3))],
      has_dev_fields := false, dev_field_values := [] }
    ⟨none, some 11, none⟩ [("speed", plain_value "speed" (some 3))]
    (some 11) ⟨none, some 11, none⟩ [] rfl rfl
    [("alt", plain_value "alt" (some 1))] (plain_value "alt" (some 9))
    (plain_value "alt" (some 1)) rfl

/-- A dependent speed field whose interpretation is controlled by the
`activity_type` field, resolving to a plain `running_speed` descriptor. -/
def dep_speed_field : Field :=
  Field.mk "speed" ["activity_type"] (some fun _ => plain_field "running_speed")

/-- A decoded value of `dep_speed_field`. -/
def dep_speed_value : FieldValue :=
  { field := dep_speed_field, value := some 21, invalid := 255,
    subvalues := [("speed", some 21)] }

/-- Witness for C8 at a concrete dependent field with its control field
missing from the (empty) provisional mapping. -/
theorem C8_missing_control_nonfatal_witness :
    (dep_speed_value.field.dependant_field_control_fields.map
        (fun x => (control_field_value [] x).1))[0]? = some none ∧
    ("Missing control field " ++ "activity_type") ∈
      (convert_one_field [] dep_speed_value).2 ∧
    (convert_one_field [] dep_speed_value).1 =
      FieldValue.reconvert
        { dep_speed_value with
            field := (fun _ => plain_field "running_speed")
              (dep_speed_value.field.dependant_field_control_fields.map
                (fun x => (control_field_value [] x).1)) } ∧
    (convert_one_field [] dep_speed_value).1.value = dep_speed_value.value ∧
    (convert_one_field [] dep_speed_value).1.invalid = dep_speed_value.invalid :=
  C8_missing_control_nonfatal [] dep_speed_value
    (fun _ => plain_field "running_speed") 0 "activity_type" rfl rfl rfl

theorem to_dict_fold_get_ts (l : List (String × FieldValue))
    (ts : Option Int) (ign lc : Bool) :
    ∀ acc : List (String × Option Int),
      (∀ p ∈ l, p.1 = "timestamp_16" ∨
        (p.1 ≠ "timestamp" ∧ p.1.toLower ≠ "timestamp" ∧
          p.1.toLower ≠ "timestamp_16")) →
      dict_get acc "timestamp" = some ts →
      dict_get (l.foldl (to_dict_step ts ign lc) acc) "timestamp" = some ts := by
  induction l with
  | nil => intro acc _ hacc; simpa using hacc
  | cons p rest ih =>
    intro acc hn hacc
    simp only [List.foldl_cons]
    apply ih _ (fun q hq => hn q (List.mem_cons_of_mem p hq))
    unfold to_dict_step
    by_cases h16 : p.1 = "timestamp_16"
    · rw [if_pos h16]
      exact dict_get_set_self acc "timestamp" ts
    · rw [if_neg h16]
      rcases hn p (List.mem_cons_self p rest) with h | ⟨h1, h2, _⟩
      · exact absurd h h16
      · by_cases hcond : (ign = false ∨ p.2.value ≠ none)
        · rw [if_pos hcond]
          have hkey : (if lc then p.1.toLower else p.1) ≠ "timestamp" := by
            cases lc <;> simp [h1, h2]
          rw [dict_get_set_ne _ _ _ _ (fun hh => hkey hh.symm)]
          exact hacc
        · rw [if_neg hcond]
          exact hacc

theorem to_dict_fold_sets_ts (l : List (String × FieldValue))
    (ts : Option Int) (ign lc : Bool) :
    ∀ acc : List (String × Option Int),
      (∀ p ∈ l, p.1 = "timestamp_16" ∨
        (p.1 ≠ "timestamp" ∧ p.1.toLower ≠ "timestamp" ∧
          p.1.toLower ≠ "timestamp_16")) →
      "timestamp_16" ∈ dict_keys l →
      dict_get (l.foldl (to_dict_step ts ign lc) acc) "timestamp" = some ts := by
  induction l with
  | nil => intro acc _ hmem; simp at hmem
  | cons p rest ih =>
    intro acc hn hmem
    simp only [List.foldl_cons]
    by_cases h16 : p.1 = "timestamp_16"
    · apply to_dict_fold_get_ts rest ts ign lc _
        (fun q hq => hn q (List.mem_cons_of_mem p hq))
      unfold to_dict_step
      rw [if_pos h16]
      exact dict_get_set_self acc "timestamp" ts
    · have hmem' : "timestamp_16" ∈ dict_keys rest := by
        rcases (by simpa using hmem : "timestamp_16" = p.1 ∨
            "timestamp_16" ∈ dict_keys rest) with h | h
        · exact absurd h.symm h16
        · exact h
      exact ih _ (fun q hq => hn q (List.mem_cons_of_mem p hq)) hmem'

theorem to_dict_fold_no_ts16 (l : List (String × FieldValue))
    (ts : Option Int) (ign lc : Bool) :
    ∀ acc : List (String × Option Int),
      (∀ p ∈ l, p.1 = "timestamp_16" ∨
        (p.1 ≠ "timestamp" ∧ p.1.toLower ≠ "timestamp" ∧
          p.1.toLower ≠ "timestamp_16")) →
      dict_get acc "timestamp_16" = none →
      dict_get (l.foldl (to_dict_step ts ign lc) acc) "timestamp_16" =
        none := by
  induction l with
  | nil => intro acc _ hacc; simpa using hacc
  | cons p rest ih =>
    intro acc hn hacc
    simp only [List.foldl_cons]
    apply ih _ (fun q hq => hn q (List.mem_cons_of_mem p hq))
    unfold to_dict_step
    by_cases h16 : p.1 = "timestamp_16"
    · rw [if_pos h16]
      rw [dict_get_set_ne _ _ _ _
        (by decide : ("timestamp_16" : String) ≠ "timestamp")]
      exact hacc
    · rw [if_neg h16]
      rcases hn p (List.mem_cons_self p rest) with h | ⟨_, _, h3⟩
      · exact absurd h h16
      · by_cases hcond : (ign = false ∨ p.2.value ≠ none)
        · rw [if_pos hcond]
          have hkey : (if lc then p.1.toLower else p.1) ≠ "timestamp_16" := by
            cases lc <;> simp [h16, h3]
          rw [dict_get_set_ne _ _ _ _ (fun hh => hkey hh.symm)]
          exact hacc
        · rw [if_neg hcond]
          exact hacc

theorem to_dict_fold_keys_nodup (l : List (String × FieldValue))
    (ts : Option Int) (ign lc : Bool) :
    ∀ acc : List (String × Option Int),
      (dict_keys acc).Nodup →
      (dict_keys (l.foldl (to_dict_step ts ign lc) acc)).Nodup := by
  induction l with
  | nil => intro acc h; simpa using h
  | cons p rest ih =>
    intro acc h
    simp only [List.foldl_cons]
    apply ih
    unfold to_dict_step
    by_cases h16 : p.1 = "timestamp_16"
    · rw [if_pos h16]
      exact dict_keys_set_nodup _ _ _ h
    · rw [if_neg h16]
      by_cases hcond : (ign = false ∨ p.2.value ≠ none)
      · rw [if_pos hcond]
        exact dict_keys_set_nodup _ _ _ h
      · rw [if_neg hcond]
        exact h

/-- C7 (amended): for a record whose field mapping contains a
`timestamp_16` entry, no `timestamp` entry and no other name colliding with
those keys, `to_dict` produces — for EVERY combination of its two option
flags — exactly one `timestamp` key, holding the record's resolved
timestamp, and no `timestamp_16` key.  Folding is unconditional; the
snapshot's two independent options are omitting empty-valued fields
(`ignore_none_values`) and lower-casing field names (`lower_case`). -/
theorem C7_to_dict_folds_timestamp16 (msg : DataMessage) (g : FieldValue)
    (hmem : dict_get msg.fields "timestamp_16" = some g)
    (hn : ∀ p ∈ msg.fields, p.1 = "timestamp_16" ∨
      (p.1 ≠ "timestamp" ∧ p.1.toLower ≠ "timestamp" ∧
        p.1.toLower ≠ "timestamp_16"))
    (ign lc : Bool) :
    dict_get (to_dict msg ign lc) "timestamp" = some msg.timestamp ∧
    dict_get (to_dict msg ign lc) "timestamp_16" = none ∧
    (dict_keys (to_dict msg ign lc)).count "timestamp" = 1 := by
  have hmemk : "timestamp_16" ∈ dict_keys msg.fields :=
    dict_get_mem_keys _ _ _ hmem
  have hts : dict_get (to_dict msg ign lc) "timestamp" = some msg.timestamp :=
    to_dict_fold_sets_ts msg.fields msg.timestamp ign lc [] hn hmemk
  refine ⟨hts, ?_, ?_⟩
  · exact to_dict_fold_no_ts16 msg.fields msg.timestamp ign lc [] hn rfl
  · exact List.count_eq_one_of_mem
      (to_dict_fold_keys_nodup msg.fields msg.timestamp ign lc []
        (by simp))
      (dict_get_mem_keys _ _ _ hts)

/-- Witness for C7 at a concrete record containing a `timestamp_16`
entry. -/
theorem C7_to_dict_folds_timestamp16_witness :
    dict_get
      (to_dict
        { fields := [("timestamp_16", plain_value "timestamp_16" (some 3))],
          timestamp := some 42, logs := [] } true true) "timestamp" =
      some (some 42) ∧
    dict_get
      (to_dict
        { fields := [("timestamp_16", plain_value "timestamp_16" (some 3))],
          timestamp := some 42, logs := [] } true true) "timestamp_16" =
      none ∧
    (dict_keys
      (to_dict
        { fields := [("timestamp_16", plain_value "timestamp_16" (some 3))],
          timestamp := some 42, logs := [] } true true)).count "timestamp" =
      1 :=
  C7_to_dict_folds_timestamp16
    { fields := [("timestamp_16", plain_value "timestamp_16" (some 3))],
      timestamp := some 42, logs := [] }
    (plain_value "timestamp_16" (some 3)) rfl
    (by
      intro p hp
      left
      simp only [List.mem_singleton] at hp
      rw [hp]) true true

/-- C7 counterexample: folding a `timestamp_16` entry is NOT an independent
option of the snapshot — for every combination of the two option flags of
`to_dict` (`ignore_none_values`, `lower_case`) the entry is folded into
`timestamp`; no flag setting preserves a `timestamp_16` key.  The second
option flag is lower-casing, not folding. -/
theorem C7_counterexample :
    to_dict
        { fields := [("timestamp_16", plain_value "timestamp_16" (some 3))],
          timestamp := some 99, logs := [] } false true =
      [("timestamp", some 99)] ∧
    to_dict
        { fields := [("timestamp_16", plain_value "timestamp_16" (some 3))],
          timestamp := some 99, logs := [] } false false =
      [("timestamp", some 99)] ∧
    to_dict
        { fields := [("timestamp_16", plain_value "timestamp_16" (some 3))],
          timestamp := some 99, logs := [] } true true =
      [("timestamp", some 99)] ∧
    to_dict
        { fields := [("timestamp_16", plain_value "timestamp_16" (some 3))],
          timestamp := some 99, logs := [] } true false =
      [("timestamp", some 99)] :=
  ⟨rfl, rfl, rfl, rfl⟩

end Fit
